import Mathlib

/-!
Shallow embedding of `src/src/optimization/stacked_optimizer.py`.

Python floats are modelled as exact rationals (`ℚ`), Python lists as Lean
lists, and every random draw (container-count draws, coin flips, the height
jitter, cut points, swap indices, shuffled subsequences) is passed in as an
explicit parameter, so that each function is a pure function of its inputs
plus the drawn values.
-/

/-- Embeds the Python dataclass `Rectangle` (width, height, id). -/
structure Rectangle where
  width : ℚ
  height : ℚ
  id : Nat
deriving DecidableEq, Repr

/-- `Rectangle.area`. -/
def Rectangle.area (r : Rectangle) : ℚ := r.width * r.height

/-- Embeds the Python dataclass `Container`; `__post_init__` makes the two
rectangle lists default to `[]`. Each list entry is `(rect_id, x_position)`. -/
structure Container where
  width : ℚ
  height : ℚ
  id : Nat
  bottom_rectangles : List (Nat × ℚ) := []
  top_rectangles : List (Nat × ℚ) := []
deriving DecidableEq, Repr

/-- Python's `all_rectangles[rect_id]` list indexing (total, with a dummy
rectangle out of range; in the program ids always index into the table). -/
def getRect (rs : List Rectangle) (i : Nat) : Rectangle := rs.getD i ⟨0, 0, 0⟩

/-- Python's `max(...)` over a list of rationals; the program only applies it
to non-empty lists, the `[]` case is a dummy value. -/
def maxOfList : List ℚ → ℚ
  | [] => 0
  | h :: t => t.foldl max h

/-- `Container.used_area`: total area of the rectangles placed in the
container (bottom loop then top loop). -/
def Container.used_area (c : Container) (rs : List Rectangle) : ℚ :=
  c.top_rectangles.foldl (fun t p => t + (getRect rs p.1).area)
    (c.bottom_rectangles.foldl (fun t p => t + (getRect rs p.1).area) 0)

/-- `Container.utilization`: used area over `width*height`, `0` when the
container area is `0`. -/
def Container.utilization (c : Container) (rs : List Rectangle) : ℚ :=
  if c.width * c.height = 0 then 0 else c.used_area rs / (c.width * c.height)

/-- `Container.get_bottom_height`: height of the tallest bottom rectangle
(`0` when the bottom edge is empty). -/
def Container.get_bottom_height (c : Container) (rs : List Rectangle) : ℚ :=
  if c.bottom_rectangles = [] then 0
  else maxOfList (c.bottom_rectangles.map (fun p => (getRect rs p.1).height))

/-- `Container.get_top_height`: height of the tallest top rectangle
(`0` when the top edge is empty). -/
def Container.get_top_height (c : Container) (rs : List Rectangle) : ℚ :=
  if c.top_rectangles = [] then 0
  else maxOfList (c.top_rectangles.map (fun p => (getRect rs p.1).height))

/-- The X-axis overlap test between a bottom item and a top item, written
identically in `get_minimum_height` (lines 124-125) and in
`_has_rectangle_clashes` (line 525):
`not (bottom_x + bottom.width <= top_x or bottom_x >= top_x + top.width)`. -/
def rects_x_overlap (rs : List Rectangle) (b t : Nat × ℚ) : Bool :=
  !(decide (b.2 + (getRect rs b.1).width ≤ t.2) ||
    decide (b.2 ≥ t.2 + (getRect rs t.1).width))

/-- The nested loop of `get_minimum_height` accumulating
`min_height_needed = max(min_height_needed, bottom.height + top.height)`
over all X-overlapping (bottom, top) pairs, starting from `0`. -/
def min_height_overlap_scan (rs : List Rectangle) (bots tops : List (Nat × ℚ)) : ℚ :=
  bots.foldl (fun acc b =>
    tops.foldl (fun acc2 t =>
      if rects_x_overlap rs b t then
        max acc2 ((getRect rs b.1).height + (getRect rs t.1).height)
      else acc2) acc) 0

/-- `Container.get_minimum_height`: minimum container height preventing
clashes.  One empty edge: sum of the two edge heights.  Both edges occupied:
the overlap scan, replaced by `max(bottom_height, top_height)` when the scan
stayed `0`, and floored at the tallest individual occupant. -/
def Container.get_minimum_height (c : Container) (rs : List Rectangle) : ℚ :=
  if c.bottom_rectangles = [] ∨ c.top_rectangles = [] then
    c.get_bottom_height rs + c.get_top_height rs
  else
    let mhn := min_height_overlap_scan rs c.bottom_rectangles c.top_rectangles
    let mhn2 := if mhn = 0 then max (c.get_bottom_height rs) (c.get_top_height rs) else mhn
    let tallest :=
      maxOfList ((c.bottom_rectangles ++ c.top_rectangles).map
        (fun p => (getRect rs p.1).height))
    max mhn2 tallest

/-- Embeds the mutable state of the Python class `Individual`: the solution
encoding (`num_containers`, `container_heights`, `rectangle_order`) plus the
evaluation fields.  The problem data (`rectangles`, `container_width`,
`max_total_height`, `max_containers`) lives in the optimizer structure. -/
structure Individual where
  num_containers : Nat
  rectangle_order : List Nat
  container_heights : List ℚ
  fitness : ℚ := 0
  containers : List Container := []
  total_height_used : ℚ := 0
  rectangles_placed : Nat := 0
  rectangle_assignments : List Int := []
deriving DecidableEq, Repr

/-- Embeds the problem and GA parameters held on `StackedContainerOptimizer`
(`__init__` lines 252-262). -/
structure StackedContainerOptimizer where
  rectangles : List Rectangle
  container_width : ℚ
  max_total_height : ℚ
  max_containers : Nat
  population_size : Nat := 100
  generations : Nat := 500
  mutation_rate : ℚ := 1/5
  crossover_rate : ℚ := 4/5
  elitism_count : Nat := 10
deriving DecidableEq, Repr

/-- `StackedContainerOptimizer.__init__`: builds the rectangle table from
`(width, height)` pairs via `enumerate`, stores the parameters, and computes
`elitism_count = int(population_size * elitism_rate)`.  The constructor
performs no validation of any argument. -/
def StackedContainerOptimizer.mkOptimizer (rect_pairs : List (ℚ × ℚ))
    (cw maxH : ℚ) (maxC popSize gens : Nat) (mutR crossR elitR : ℚ) :
    StackedContainerOptimizer :=
  { rectangles := rect_pairs.enum.map (fun p => ⟨p.2.1, p.2.2, p.1⟩)
    container_width := cw
    max_total_height := maxH
    max_containers := maxC
    population_size := popSize
    generations := gens
    mutation_rate := mutR
    crossover_rate := crossR
    elitism_count := ((popSize : ℚ) * elitR).floor.toNat }

/-- `Individual.__init__`: `r` is the draw of `random.randint(1, max_containers)`;
the order starts as `range(N)` and the heights as the equal split
`[max_total_height / num_containers] * num_containers`. -/
def Individual.init (opt : StackedContainerOptimizer) (r : Nat) : Individual :=
  { num_containers := r
    rectangle_order := List.range opt.rectangles.length
    container_heights := List.replicate r (opt.max_total_height / (r : ℚ)) }

/-- `Individual.initialize_random`: `random.shuffle(self.rectangle_order)`;
`shuffled` is the drawn shuffle outcome (a permutation of the current order). -/
def Individual.init_random (ind : Individual) (shuffled : List Nat) : Individual :=
  { ind with rectangle_order := shuffled }

/-- `Individual.copy` (lines 187-205): builds a fresh `Individual` (whose
inner `__init__` makes the random draw `r`), then overwrites
`num_containers`, `rectangle_order`, `fitness`, the deep-copied containers,
`total_height_used` and `rectangles_placed`.  Note that `container_heights`
is NOT overwritten: it keeps the fresh equal split produced by `__init__`. -/
def Individual.copy (self : Individual) (opt : StackedContainerOptimizer)
    (r : Nat) : Individual :=
  let new_ind := Individual.init opt r
  { new_ind with
    num_containers := self.num_containers
    rectangle_order := self.rectangle_order
    fitness := self.fitness
    containers := self.containers.map (fun c =>
      { width := c.width, height := c.height, id := c.id
        bottom_rectangles := c.bottom_rectangles
        top_rectangles := c.top_rectangles })
    total_height_used := self.total_height_used
    rectangles_placed := self.rectangles_placed }

/-- `can_place_at_bottom`: the rectangle must fit the container height, and
the new tallest bottom height must fit in `container.height - top_height`. -/
def can_place_at_bottom (rs : List Rectangle) (c : Container) (r : Rectangle) : Bool :=
  if decide (r.height > c.height) then false
  else
    decide (max (c.get_bottom_height rs) r.height ≤ c.height - c.get_top_height rs)

/-- `can_place_at_top`: symmetric to `can_place_at_bottom`. -/
def can_place_at_top (rs : List Rectangle) (c : Container) (r : Rectangle) : Bool :=
  if decide (r.height > c.height) then false
  else
    decide (max (c.get_top_height rs) r.height ≤ c.height - c.get_bottom_height rs)

/-- `_overlaps_with_bottom_rectangles` / `_overlaps_with_top_rectangles`:
whether a rectangle of width `w` put at `x` X-overlaps any existing item of
`items` (the same-edge list). -/
def overlaps_with_items (rs : List Rectangle) (items : List (Nat × ℚ))
    (w x : ℚ) : Bool :=
  items.any (fun q =>
    !(decide (x + w ≤ q.2) || decide (x ≥ q.2 + (getRect rs q.1).width)))

/-- Strategy 1 of `find_bottom_position` / `find_top_position`: walk the
OPPOSITE edge's items; for each, try the same x, then the end-aligned x,
subject to container width and no same-edge overlap. -/
def align_scan (rs : List Rectangle) (cw : ℚ) (r : Rectangle) :
    List (Nat × ℚ) → List (Nat × ℚ) → Option ℚ
  | [], _ => none
  | (oid, ox) :: rest, same =>
    if decide (ox + r.width ≤ cw) && !overlaps_with_items rs same r.width ox then
      some ox
    else
      let ax := ox + (getRect rs oid).width - r.width
      if decide (ax ≥ 0) && decide (ax + r.width ≤ cw) &&
          !overlaps_with_items rs same r.width ax then
        some ax
      else align_scan rs cw r rest same

/-- Stable insertion of an occupied range into a lexicographically sorted
list; models Python's stable `list.sort()` on `(start, end)` tuples. -/
def insertRange (x : ℚ × ℚ) : List (ℚ × ℚ) → List (ℚ × ℚ)
  | [] => [x]
  | y :: ys =>
    if decide (y.1 < x.1) || (decide (y.1 = x.1) && decide (y.2 < x.2)) then
      y :: insertRange x ys
    else x :: y :: ys

/-- `occupied_ranges.sort()` (stable, lexicographic on pairs). -/
def sortRanges (l : List (ℚ × ℚ)) : List (ℚ × ℚ) := l.foldr insertRange []

/-- Strategy 2 of the position search: left-to-right first-fit scan over the
sorted occupied ranges, with `current_x` starting at `0`. -/
def firstFitFrom (w cw : ℚ) (cur : ℚ) : List (ℚ × ℚ) → Option ℚ
  | [] => if decide (cur + w ≤ cw) then some cur else none
  | (s, e) :: rest =>
    if decide (cur + w ≤ s) then some cur else firstFitFrom w cw (max cur e) rest

/-- `find_bottom_position`: `None` if `can_place_at_bottom` fails, then
strategy 1 against the top items, then strategy 2 over the bottom ranges. -/
def find_bottom_position (rs : List Rectangle) (c : Container) (r : Rectangle) :
    Option ℚ :=
  if !can_place_at_bottom rs c r then none
  else
    match align_scan rs c.width r c.top_rectangles c.bottom_rectangles with
    | some x => some x
    | none =>
      firstFitFrom r.width c.width 0
        (sortRanges (c.bottom_rectangles.map
          (fun p => (p.2, p.2 + (getRect rs p.1).width))))

/-- `find_top_position`: symmetric to `find_bottom_position`. -/
def find_top_position (rs : List Rectangle) (c : Container) (r : Rectangle) :
    Option ℚ :=
  if !can_place_at_top rs c r then none
  else
    match align_scan rs c.width r c.bottom_rectangles c.top_rectangles with
    | some x => some x
    | none =>
      firstFitFrom r.width c.width 0
        (sortRanges (c.top_rectangles.map
          (fun p => (p.2, p.2 + (getRect rs p.1).width))))

/-- The `for container_idx, container in enumerate(containers)` loop of
`pack_rectangles` for one rectangle: skip a container the rectangle is wider
than; otherwise try bottom then top; stop at the first success.  Returns the
updated container list and the id of the receiving container (if any). -/
def placeRectFrom (rs : List Rectangle) (r : Rectangle) (ri : Nat) :
    List Container → List Container × Option Nat
  | [] => ([], none)
  | c :: rest =>
    if decide (r.width > c.width) then
      let res := placeRectFrom rs r ri rest
      (c :: res.1, res.2)
    else
      match (if can_place_at_bottom rs c r then find_bottom_position rs c r else none) with
      | some x =>
        ({ c with bottom_rectangles := c.bottom_rectangles ++ [(ri, x)] } :: rest,
         some c.id)
      | none =>
        match (if can_place_at_top rs c r then find_top_position rs c r else none) with
        | some x =>
          ({ c with top_rectangles := c.top_rectangles ++ [(ri, x)] } :: rest,
           some c.id)
        | none =>
          let res := placeRectFrom rs r ri rest
          (c :: res.1, res.2)

/-- The outer `for rect_idx in individual.rectangle_order` loop of
`pack_rectangles`, threading the containers, `placed_count` and
`rectangle_assignments`. -/
def packLoop (rs : List Rectangle) :
    List Nat → List Container → Nat → List Int → List Container × Nat × List Int
  | [], cs, count, asg => (cs, count, asg)
  | ri :: rest, cs, count, asg =>
    match placeRectFrom rs (getRect rs ri) ri cs with
    | (cs2, some ci) => packLoop rs rest cs2 (count + 1) (asg.set ri (Int.ofNat ci))
    | (cs2, none) => packLoop rs rest cs2 count (asg.set ri (-1))

/-- `_calculate_alignment_bonus` (its result is computed but unused in
`pack_rectangles`). -/
def calculate_alignment_bonus (rs : List Rectangle) (c : Container) : ℚ :=
  if c.bottom_rectangles = [] ∨ c.top_rectangles = [] then 0
  else
    let scores := c.bottom_rectangles.foldl (fun acc b =>
      c.top_rectangles.foldl (fun acc2 t =>
        let bw := (getRect rs b.1).width
        let tw := (getRect rs t.1).width
        let ov := max 0 (min (b.2 + bw) (t.2 + tw) - max b.2 t.2)
        let mw := min bw tw
        (acc2.1 + (if 0 < mw then ov / mw else 0), acc2.2 + 1)) acc) ((0 : ℚ), (0 : ℚ))
    if 0 < scores.2 then scores.1 / scores.2 else 0

/-- The height-optimization pass at the end of `pack_rectangles`: every
container holding at least one item gets
`height = min_height + random.uniform(0.0, 0.02) * min_height`; the jitter
draw for container `id` is `u id`. -/
def optimizeContainerHeights (rs : List Rectangle) (u : Nat → ℚ)
    (cs : List Container) : List Container :=
  cs.map (fun c =>
    if c.bottom_rectangles ≠ [] ∨ c.top_rectangles ≠ [] then
      let min_height := c.get_minimum_height rs
      { c with height := min_height + u c.id * min_height }
    else c)

/-- The container-construction loop at the start of `pack_rectangles`:
one container per `num_containers`, with height `container_heights[i]` when
in range, else `max_total_height / num_containers`. -/
def mkContainers (opt : StackedContainerOptimizer) (ind : Individual) :
    List Container :=
  (List.range ind.num_containers).map (fun i =>
    { width := opt.container_width
      height := if i < ind.container_heights.length then ind.container_heights.getD i 0
                else opt.max_total_height / (ind.num_containers : ℚ)
      id := i })

/-- `pack_rectangles`: build the containers, place the rectangles in order,
then re-derive every occupied container's height from its minimum height plus
the jitter `u`.  Returns `(containers, placed_count, rectangle_assignments)`. -/
def pack_rectangles (opt : StackedContainerOptimizer) (u : Nat → ℚ)
    (ind : Individual) : List Container × Nat × List Int :=
  let res := packLoop opt.rectangles ind.rectangle_order (mkContainers opt ind) 0
    (List.replicate opt.rectangles.length (-1))
  (optimizeContainerHeights opt.rectangles u res.1, res.2.1, res.2.2)

/-- `_has_rectangle_clashes`: some bottom item (Y-span `[0, bottom.height]`)
and top item (Y-span `[height - top.height, height]`) overlap in X and Y
simultaneously. -/
def has_rectangle_clashes (rs : List Rectangle) (c : Container) : Bool :=
  if c.bottom_rectangles = [] ∨ c.top_rectangles = [] then false
  else
    c.bottom_rectangles.any (fun b =>
      c.top_rectangles.any (fun t =>
        let br := getRect rs b.1
        let tr := getRect rs t.1
        let x_overlap := rects_x_overlap rs b t
        let y_overlap :=
          !(decide (br.height ≤ c.height - tr.height) || decide ((0:ℚ) ≥ c.height))
        x_overlap && y_overlap))

/-- One step of the order-crossover fill loop (lines 701-704 / 709-712):
`for item in rotation: if item not in child: child[pointer % size] = item;
pointer += 1`.  The child list uses `-1` as the "unfilled" marker. -/
def oxFill : List Int → List Int → Nat → List Int
  | child, [], _ => child
  | child, item :: rest, p =>
    if item ∈ child then oxFill child rest p
    else oxFill (child.set (p % child.length) item) rest (p + 1)

/-- The order crossover (lines 694-704): `child = [-1]*size` with
`child[start:end] = parent1[start:end]`, then the fill loop over
`parent2[end:] + parent2[:end]` starting at `pointer = end`. -/
def orderCrossoverChild (p1 p2 : List Nat) (s e : Nat) : List Int :=
  let q1 := p1.map Int.ofNat
  let q2 := p2.map Int.ofNat
  let child0 :=
    List.replicate s (-1) ++ ((q1.drop s).take (e - s) ++
      List.replicate (p1.length - e) (-1))
  oxFill child0 (q2.drop e ++ q2.take e) e

/-- The `while len(heights) < num: append(max_total_height / num)` padding
used by crossover and the `containers` mutation. -/
def fillHeights (hs : List ℚ) (n : Nat) (maxH : ℚ) : List ℚ :=
  hs ++ List.replicate (n - hs.length) (maxH / (n : ℚ))

/-- The height recombination loop of `crossover` (lines 672-682): one coin
flip per index `i < max(child1.num, child2.num)`, appending the parents'
heights position-wise when in range. -/
def crossoverHeightsLoop (coins : Nat → Bool) (h1 h2 : List ℚ) (m : Nat) :
    List ℚ × List ℚ :=
  (List.range m).foldl (fun acc i =>
    if coins i then
      (acc.1 ++ (if i < h1.length then [h1.getD i 0] else []),
       acc.2 ++ (if i < h2.length then [h2.getD i 0] else []))
    else
      (acc.1 ++ (if i < h2.length then [h2.getD i 0] else []),
       acc.2 ++ (if i < h1.length then [h1.getD i 0] else []))) ([], [])

/-- `crossover` (lines 655-714), in the branch where crossover is performed:
`numCoin` decides which parent each child inherits `num_containers` from,
`coins` are the per-index height coin flips, and `s < e` are the two sorted
cut points drawn by `random.sample(range(size), 2)`.  (With probability
`1 - crossover_rate` the method instead returns `parent.copy()` for both
parents, lines 652-653 — that branch is `Individual.copy`.) -/
def crossover (opt : StackedContainerOptimizer) (p1 p2 : Individual)
    (numCoin : Bool) (coins : Nat → Bool) (s e : Nat) :
    Individual × Individual :=
  let c1n := if numCoin then p1.num_containers else p2.num_containers
  let c2n := if numCoin then p2.num_containers else p1.num_containers
  let hp := crossoverHeightsLoop coins p1.container_heights p2.container_heights
    (max c1n c2n)
  let h1 := fillHeights (hp.1.take c1n) c1n opt.max_total_height
  let h2 := fillHeights (hp.2.take c2n) c2n opt.max_total_height
  let o1 := (orderCrossoverChild p1.rectangle_order p2.rectangle_order s e).map
    Int.toNat
  let o2 := (orderCrossoverChild p2.rectangle_order p1.rectangle_order s e).map
    Int.toNat
  ({ num_containers := c1n, rectangle_order := o1, container_heights := h1 },
   { num_containers := c2n, rectangle_order := o2, container_heights := h2 })

/-- The six mutation operators of `mutate`. -/
inductive MutationType
  | containers
  | heights
  | order
  | adjust
  | shuffle
  | random_heights
deriving DecidableEq, Repr

/-- The random draws a single `mutate` call can consume, one field per
`random.*` call site of the corresponding operator. -/
structure MutationDraws where
  newNum : Nat := 1
  idx : Nat := 0
  delta : ℚ := 0
  i : Nat := 0
  j : Nat := 0
  adjustF : Nat → ℚ := fun _ => 1
  start : Nat := 0
  size : Nat := 0
  newSub : List Nat := []
  randF : Nat → ℚ := fun _ => 1

/-- `mutate`, `containers` branch: redraw `num_containers`, pad the heights
with the equal split, then truncate. -/
def mutateContainersOp (opt : StackedContainerOptimizer) (ind : Individual)
    (newNum : Nat) : Individual :=
  { ind with
    num_containers := newNum
    container_heights :=
      (fillHeights ind.container_heights newNum opt.max_total_height).take newNum }

/-- `mutate`, `heights` branch: bump one height by `delta` (drawn from
`±30%`), floor at `1`, then rescale everything if the sum exceeds
`max_total_height`. -/
def mutateHeightsOp (opt : StackedContainerOptimizer) (ind : Individual)
    (idx : Nat) (delta : ℚ) : Individual :=
  if ind.container_heights = [] then ind
  else
    let current := ind.container_heights.getD idx 0
    let hs := ind.container_heights.set idx (max 1 (current + delta))
    let total := hs.sum
    { ind with
      container_heights :=
        if total > opt.max_total_height then
          hs.map (fun h => h * (opt.max_total_height / total))
        else hs }

/-- `mutate`, `order` branch: swap positions `i` and `j` (distinct draws of
`random.sample`) when the order has more than one element. -/
def mutateOrderOp (ind : Individual) (i j : Nat) : Individual :=
  if 1 < ind.rectangle_order.length then
    { ind with
      rectangle_order :=
        (ind.rectangle_order.set i (ind.rectangle_order.getD j 0)).set j
          (ind.rectangle_order.getD i 0) }
  else ind

/-- `mutate`, `adjust` branch: rebuild the heights as
`avg * random.uniform(0.8, 1.2)` capped by the remaining budget, with the
last container absorbing the remainder. -/
def mutateAdjustOp (opt : StackedContainerOptimizer) (ind : Individual)
    (f : Nat → ℚ) : Individual :=
  if 0 < ind.num_containers then
    let avg := opt.max_total_height / (ind.num_containers : ℚ)
    let hs := ((List.range ind.num_containers).foldl
      (fun (acc : List ℚ × ℚ) i =>
        let h := if i = ind.num_containers - 1 then acc.2
                 else min (avg * f i) acc.2
        (acc.1 ++ [h], acc.2 - h)) ([], opt.max_total_height)).1
    { ind with container_heights := hs }
  else ind

/-- `mutate`, `shuffle` branch: shuffle a contiguous subsequence in place;
`newSub` is the drawn shuffle outcome for
`rectangle_order[start : start + size]`. -/
def mutateShuffleOp (ind : Individual) (start size : Nat) (newSub : List Nat) :
    Individual :=
  if 2 < ind.rectangle_order.length then
    { ind with
      rectangle_order :=
        ind.rectangle_order.take start ++ newSub ++
          ind.rectangle_order.drop (start + size) }
  else ind

/-- `mutate`, `random_heights` branch: each container but the last gets
`min(random.uniform(0.5, 0.8 * remaining), remaining)` (the draw is `g i`),
the last absorbs the remainder. -/
def mutateRandomHeightsOp (opt : StackedContainerOptimizer) (ind : Individual)
    (g : Nat → ℚ) : Individual :=
  if 0 < ind.num_containers then
    let hs := ((List.range ind.num_containers).foldl
      (fun (acc : List ℚ × ℚ) i =>
        let h := if i = ind.num_containers - 1 then acc.2
                 else min (g i) acc.2
        (acc.1 ++ [h], acc.2 - h)) ([], opt.max_total_height)).1
    { ind with container_heights := hs }
  else ind

/-- `mutate` (lines 716-806) after the mutation trigger fired: dispatch on
the drawn operator. -/
def mutate (opt : StackedContainerOptimizer) (ind : Individual)
    (mt : MutationType) (d : MutationDraws) : Individual :=
  match mt with
  | .containers => mutateContainersOp opt ind d.newNum
  | .heights => mutateHeightsOp opt ind d.idx d.delta
  | .order => mutateOrderOp ind d.i d.j
  | .adjust => mutateAdjustOp opt ind d.adjustF
  | .shuffle => mutateShuffleOp ind d.start d.size d.newSub
  | .random_heights => mutateRandomHeightsOp opt ind d.randF

/-- The clash-penalty accumulation of `evaluate_fitness` (lines 590-593):
`+10000` per container with a clash. -/
def clash_penalty_of (rs : List Rectangle) (cs : List Container) : ℚ :=
  cs.foldl (fun acc c => if has_rectangle_clashes rs c then acc + 10000 else acc) 0

/-- The compactness-bonus accumulation of `evaluate_fitness` (lines 596-603):
`+ (min_height / actual_height) * 200` per container occupied on both edges
with positive height. -/
def compactness_bonus_of (rs : List Rectangle) (cs : List Container) : ℚ :=
  cs.foldl (fun acc c =>
    if c.bottom_rectangles ≠ [] ∧ c.top_rectangles ≠ [] then
      if 0 < c.height then acc + (c.get_minimum_height rs / c.height) * 200
      else acc
    else acc) 0

/-- The average-utilization computation of `evaluate_fitness`
(lines 568-575): mean utilization over containers holding at least one item,
`0` when there is none. -/
def avg_utilization_of (rs : List Rectangle) (cs : List Container) : ℚ :=
  let withItems := cs.filter (fun c =>
    !(c.bottom_rectangles.isEmpty && c.top_rectangles.isEmpty))
  if 0 < withItems.length then
    (withItems.map (fun c => c.utilization rs)).sum / (withItems.length : ℚ)
  else 0

/-- The non-degenerate fitness formula of `evaluate_fitness`
(lines 567-614), as a function of the pack result. -/
def fitness_value (opt : StackedContainerOptimizer) (cs : List Container)
    (placed : Nat) (num_containers : Nat) (total_height_used : ℚ) : ℚ :=
  let total_rectangles := opt.rectangles.length
  let placement_rate : ℚ :=
    if 0 < total_rectangles then (placed : ℚ) / (total_rectangles : ℚ) else 0
  let avg_utilization := avg_utilization_of opt.rectangles cs
  let container_penalty : ℚ := (num_containers : ℚ) / (opt.max_containers : ℚ)
  let height_penalty : ℚ :=
    if 0 < opt.max_total_height then total_height_used / opt.max_total_height else 1
  let placement_bonus : ℚ := if placed = total_rectangles then 500 else 0
  placement_rate * 1000 + placement_bonus + avg_utilization * 300 +
    compactness_bonus_of opt.rectangles cs - container_penalty * 50 -
    height_penalty * 30 - clash_penalty_of opt.rectangles cs

/-- `evaluate_fitness` (lines 535-614): run `pack_rectangles`, store the
containers / placed count / assignments / total height on the individual;
if zero rectangles were placed set the `-1000` sentinel and stop, otherwise
set the combined fitness. -/
def evaluate_fitness (opt : StackedContainerOptimizer) (u : Nat → ℚ)
    (ind : Individual) : Individual :=
  let pr := pack_rectangles opt u ind
  let total_height_used := ((pr.1.take ind.num_containers).map Container.height).sum
  let base := { ind with
    containers := pr.1
    rectangles_placed := pr.2.1
    rectangle_assignments := pr.2.2
    total_height_used := total_height_used }
  if pr.2.1 = 0 then { base with fitness := -1000 }
  else
    { base with
      fitness := fitness_value opt pr.1 pr.2.1 ind.num_containers total_height_used }

/-! ### Generic fold and max helper lemmas -/

theorem foldl_ge_init {α : Type} (g : ℚ → α → ℚ) (hg : ∀ a x, a ≤ g a x) :
    ∀ (l : List α) (a : ℚ), a ≤ l.foldl g a
  | [], a => le_refl a
  | x :: l, a => le_trans (hg a x) (foldl_ge_init g hg l (g a x))

theorem foldl_ge_elem {α : Type} (g : ℚ → α → ℚ) (hg : ∀ a x, a ≤ g a x)
    (v : ℚ) (x : α) (hx : ∀ a, v ≤ g a x) :
    ∀ (l : List α) (a : ℚ), x ∈ l → v ≤ l.foldl g a := by
  intro l
  induction l with
  | nil => intro a h; exact absurd h (List.not_mem_nil x)
  | cons y t ih =>
    intro a h
    rcases List.mem_cons.mp h with h | h
    · subst h
      exact le_trans (hx a) (foldl_ge_init g hg t (g a x))
    · exact ih (g a y) h

theorem foldl_le_foldl {α : Type} (g g' : ℚ → α → ℚ) :
    ∀ (l : List α), (∀ a a' x, x ∈ l → a ≤ a' → g a x ≤ g' a' x) →
      ∀ a a', a ≤ a' → l.foldl g a ≤ l.foldl g' a' := by
  intro l
  induction l with
  | nil => intro _ a a' h; exact h
  | cons y t ih =>
    intro hstep a a' h
    exact ih (fun b b' x hx hb => hstep b b' x (List.mem_cons_of_mem y hx) hb)
      (g a y) (g' a' y) (hstep a a' y (List.mem_cons_self y t) h)

theorem foldl_max_comm : ∀ (l : List ℚ) (a b : ℚ),
    l.foldl max (max a b) = max a (l.foldl max b)
  | [], _, _ => rfl
  | c :: l, a, b => by
    simp only [List.foldl_cons, max_assoc]
    exact foldl_max_comm l a (max b c)

theorem maxOfList_ge_mem {x : ℚ} {l : List ℚ} (h : x ∈ l) : x ≤ maxOfList l := by
  match l, h with
  | y :: t, h =>
    rcases List.mem_cons.mp h with h | h
    · subst h
      exact foldl_ge_init max (fun a z => le_max_left a z) t x
    · exact foldl_ge_elem max (fun a z => le_max_left a z) x x
        (fun a => le_max_right a x) t y h

theorem maxOfList_append {l₁ l₂ : List ℚ} (h₁ : l₁ ≠ []) (h₂ : l₂ ≠ []) :
    maxOfList (l₁ ++ l₂) = max (maxOfList l₁) (maxOfList l₂) := by
  match l₁, l₂ with
  | a :: t₁, b :: t₂ =>
    show (t₁ ++ b :: t₂).foldl max a = max (t₁.foldl max a) (t₂.foldl max b)
    rw [List.foldl_append, List.foldl_cons, foldl_max_comm]

theorem maxOfList_map_le_map {α : Type} (f g : α → ℚ) (l : List α)
    (h : ∀ x ∈ l, f x ≤ g x) : maxOfList (l.map f) ≤ maxOfList (l.map g) := by
  match l with
  | [] => exact le_refl 0
  | a :: t =>
    show (t.map f).foldl max (f a) ≤ (t.map g).foldl max (g a)
    rw [List.foldl_map, List.foldl_map]
    exact foldl_le_foldl _ _ t
      (fun b b' x hx hb => max_le_max hb (h x (List.mem_cons_of_mem a hx)))
      (f a) (g a) (h a (List.mem_cons_self a t))

/-! ### Lemmas about `get_minimum_height` -/

theorem edge_height_step_ge (rs : List Rectangle) (b : Nat × ℚ) :
    ∀ (a : ℚ) (t : Nat × ℚ),
      a ≤ (if rects_x_overlap rs b t then
        max a ((getRect rs b.1).height + (getRect rs t.1).height) else a) := by
  intro a t
  by_cases h : rects_x_overlap rs b t <;> simp [h]

theorem scan_nonneg (rs : List Rectangle) (bots tops : List (Nat × ℚ)) :
    0 ≤ min_height_overlap_scan rs bots tops :=
  foldl_ge_init _
    (fun a b => foldl_ge_init _ (edge_height_step_ge rs b) tops a) bots 0

theorem pair_le_scan (rs : List Rectangle) {bots tops : List (Nat × ℚ)}
    {b t : Nat × ℚ} (hb : b ∈ bots) (ht : t ∈ tops)
    (hov : rects_x_overlap rs b t = true) :
    (getRect rs b.1).height + (getRect rs t.1).height ≤
      min_height_overlap_scan rs bots tops := by
  apply foldl_ge_elem _
    (fun a b' => foldl_ge_init _ (edge_height_step_ge rs b') tops a)
    _ b _ bots 0 hb
  intro a
  apply foldl_ge_elem _ (edge_height_step_ge rs b) _ t _ tops a ht
  intro a2
  simp [hov]

theorem get_bottom_height_nonneg (rs : List Rectangle) (c : Container)
    (hh : ∀ i, 0 ≤ (getRect rs i).height) : 0 ≤ c.get_bottom_height rs := by
  unfold Container.get_bottom_height
  by_cases hc : c.bottom_rectangles = []
  · simp [hc]
  · obtain ⟨p, t, hl⟩ := List.exists_cons_of_ne_nil hc
    simp only [hc, if_false]
    refine le_trans (hh p.1) (maxOfList_ge_mem (List.mem_map_of_mem _ ?_))
    rw [hl]; exact List.mem_cons_self p t

theorem get_top_height_nonneg (rs : List Rectangle) (c : Container)
    (hh : ∀ i, 0 ≤ (getRect rs i).height) : 0 ≤ c.get_top_height rs := by
  unfold Container.get_top_height
  by_cases hc : c.top_rectangles = []
  · simp [hc]
  · obtain ⟨p, t, hl⟩ := List.exists_cons_of_ne_nil hc
    simp only [hc, if_false]
    refine le_trans (hh p.1) (maxOfList_ge_mem (List.mem_map_of_mem _ ?_))
    rw [hl]; exact List.mem_cons_self p t

theorem get_minimum_height_of_single (rs : List Rectangle) (c : Container)
    (h : c.bottom_rectangles = [] ∨ c.top_rectangles = []) :
    c.get_minimum_height rs = c.get_bottom_height rs + c.get_top_height rs := by
  unfold Container.get_minimum_height
  rw [if_pos h]

theorem get_minimum_height_of_both (rs : List Rectangle) (c : Container)
    (hb : c.bottom_rectangles ≠ []) (ht : c.top_rectangles ≠ []) :
    c.get_minimum_height rs =
      max
        (if min_height_overlap_scan rs c.bottom_rectangles c.top_rectangles = 0
         then max (c.get_bottom_height rs) (c.get_top_height rs)
         else min_height_overlap_scan rs c.bottom_rectangles c.top_rectangles)
        (maxOfList ((c.bottom_rectangles ++ c.top_rectangles).map
          (fun p => (getRect rs p.1).height))) := by
  unfold Container.get_minimum_height
  rw [if_neg (by simp [hb, ht])]

theorem get_bottom_height_of_ne (rs : List Rectangle) (c : Container)
    (hb : c.bottom_rectangles ≠ []) :
    c.get_bottom_height rs =
      maxOfList (c.bottom_rectangles.map (fun p => (getRect rs p.1).height)) := by
  unfold Container.get_bottom_height
  rw [if_neg hb]

theorem get_top_height_of_ne (rs : List Rectangle) (c : Container)
    (ht : c.top_rectangles ≠ []) :
    c.get_top_height rs =
      maxOfList (c.top_rectangles.map (fun p => (getRect rs p.1).height)) := by
  unfold Container.get_top_height
  rw [if_neg ht]

theorem min_height_ge_occupant (rs : List Rectangle) (c : Container)
    {p : Nat × ℚ} (hp : p ∈ c.bottom_rectangles ++ c.top_rectangles) :
    (getRect rs p.1).height ≤ c.get_minimum_height rs := by
  rcases List.mem_append.mp hp with hmem | hmem
  · have hbne : c.bottom_rectangles ≠ [] := List.ne_nil_of_mem hmem
    by_cases hte : c.top_rectangles = []
    · rw [get_minimum_height_of_single rs c (Or.inr hte),
        get_bottom_height_of_ne rs c hbne]
      have h1 : (getRect rs p.1).height ≤
          maxOfList (c.bottom_rectangles.map (fun p => (getRect rs p.1).height)) :=
        maxOfList_ge_mem (List.mem_map_of_mem _ hmem)
      have h2 : c.get_top_height rs = 0 := by
        unfold Container.get_top_height; rw [if_pos hte]
      rw [h2]; linarith
    · rw [get_minimum_height_of_both rs c hbne hte]
      have hm1 : p ∈ c.bottom_rectangles ++ c.top_rectangles :=
        List.mem_append_left _ hmem
      have hm2 := List.mem_map_of_mem (fun p => (getRect rs p.1).height) hm1
      have hm3 := maxOfList_ge_mem hm2
      exact le_trans hm3 (le_max_right _ _)
  · have htne : c.top_rectangles ≠ [] := List.ne_nil_of_mem hmem
    by_cases hbe : c.bottom_rectangles = []
    · rw [get_minimum_height_of_single rs c (Or.inl hbe),
        get_top_height_of_ne rs c htne]
      have h1 : (getRect rs p.1).height ≤
          maxOfList (c.top_rectangles.map (fun p => (getRect rs p.1).height)) :=
        maxOfList_ge_mem (List.mem_map_of_mem _ hmem)
      have h2 : c.get_bottom_height rs = 0 := by
        unfold Container.get_bottom_height; rw [if_pos hbe]
      rw [h2]; linarith
    · rw [get_minimum_height_of_both rs c hbe htne]
      have hm1 : p ∈ c.bottom_rectangles ++ c.top_rectangles :=
        List.mem_append_right _ hmem
      have hm2 := List.mem_map_of_mem (fun p => (getRect rs p.1).height) hm1
      have hm3 := maxOfList_ge_mem hm2
      exact le_trans hm3 (le_max_right _ _)

theorem min_height_nonneg (rs : List Rectangle) (c : Container)
    (hh : ∀ i, 0 ≤ (getRect rs i).height)
    (hocc : c.bottom_rectangles ≠ [] ∨ c.top_rectangles ≠ []) :
    0 ≤ c.get_minimum_height rs := by
  rcases hocc with hocc | hocc
  · obtain ⟨p, t, hl⟩ := List.exists_cons_of_ne_nil hocc
    refine le_trans (hh p.1) (min_height_ge_occupant rs c
      (List.mem_append_left _ ?_))
    rw [hl]; exact List.mem_cons_self p t
  · obtain ⟨p, t, hl⟩ := List.exists_cons_of_ne_nil hocc
    refine le_trans (hh p.1) (min_height_ge_occupant rs c
      (List.mem_append_right _ ?_))
    rw [hl]; exact List.mem_cons_self p t

theorem pair_le_min_height (rs : List Rectangle) (c : Container)
    (hh : ∀ i, 0 ≤ (getRect rs i).height)
    {b t : Nat × ℚ} (hb : b ∈ c.bottom_rectangles) (ht : t ∈ c.top_rectangles)
    (hov : rects_x_overlap rs b t = true) :
    (getRect rs b.1).height + (getRect rs t.1).height ≤
      c.get_minimum_height rs := by
  have hbne : c.bottom_rectangles ≠ [] := List.ne_nil_of_mem hb
  have htne : c.top_rectangles ≠ [] := List.ne_nil_of_mem ht
  rw [get_minimum_height_of_both rs c hbne htne]
  have hps := pair_le_scan rs hb ht hov
  by_cases hz : min_height_overlap_scan rs c.bottom_rectangles c.top_rectangles = 0
  · have hb0 : (getRect rs b.1).height + (getRect rs t.1).height ≤ 0 := hz ▸ hps
    have htall : (getRect rs b.1).height ≤
        maxOfList ((c.bottom_rectangles ++ c.top_rectangles).map
          (fun p => (getRect rs p.1).height)) :=
      maxOfList_ge_mem (List.mem_map_of_mem _ (List.mem_append_left _ hb))
    have := hh b.1
    exact le_trans hb0 (le_trans this (le_trans htall (le_max_right _ _)))
  · rw [if_neg hz]
    exact le_trans hps (le_max_left _ _)

theorem rects_x_overlap_congr (rs rs' : List Rectangle)
    (hw : ∀ i, (getRect rs i).width = (getRect rs' i).width) (b t : Nat × ℚ) :
    rects_x_overlap rs b t = rects_x_overlap rs' b t := by
  unfold rects_x_overlap
  rw [hw b.1, hw t.1]

theorem scan_mono (rs rs' : List Rectangle) (bots tops : List (Nat × ℚ))
    (hw : ∀ i, (getRect rs i).width = (getRect rs' i).width)
    (hh : ∀ i, (getRect rs i).height ≤ (getRect rs' i).height) :
    min_height_overlap_scan rs bots tops ≤
      min_height_overlap_scan rs' bots tops := by
  unfold min_height_overlap_scan
  refine foldl_le_foldl _ _ bots ?_ 0 0 le_rfl
  intro a a' b _ ha
  refine foldl_le_foldl _ _ tops ?_ a a' ha
  intro a2 a2' t _ ha2
  rw [rects_x_overlap_congr rs rs' hw b t]
  cases hov : rects_x_overlap rs' b t with
  | false => simpa [hov] using ha2
  | true =>
    simp only [hov, if_true]
    exact max_le_max ha2 (add_le_add (hh b.1) (hh t.1))

theorem get_bottom_height_le (rs rs' : List Rectangle) (c : Container)
    (hh : ∀ i, (getRect rs i).height ≤ (getRect rs' i).height) :
    c.get_bottom_height rs ≤ c.get_bottom_height rs' := by
  by_cases hc : c.bottom_rectangles = []
  · unfold Container.get_bottom_height
    rw [if_pos hc, if_pos hc]
  · rw [get_bottom_height_of_ne rs c hc, get_bottom_height_of_ne rs' c hc]
    exact maxOfList_map_le_map _ _ _ (fun p _ => hh p.1)

theorem get_top_height_le (rs rs' : List Rectangle) (c : Container)
    (hh : ∀ i, (getRect rs i).height ≤ (getRect rs' i).height) :
    c.get_top_height rs ≤ c.get_top_height rs' := by
  by_cases hc : c.top_rectangles = []
  · unfold Container.get_top_height
    rw [if_pos hc, if_pos hc]
  · rw [get_top_height_of_ne rs c hc, get_top_height_of_ne rs' c hc]
    exact maxOfList_map_le_map _ _ _ (fun p _ => hh p.1)

theorem tallest_eq_edges (rs : List Rectangle) (c : Container)
    (hb : c.bottom_rectangles ≠ []) (ht : c.top_rectangles ≠ []) :
    maxOfList ((c.bottom_rectangles ++ c.top_rectangles).map
      (fun p => (getRect rs p.1).height)) =
    max (c.get_bottom_height rs) (c.get_top_height rs) := by
  rw [List.map_append, maxOfList_append, get_bottom_height_of_ne rs c hb,
    get_top_height_of_ne rs c ht]
  · intro h; exact hb (List.map_eq_nil_iff.mp h)
  · intro h; exact ht (List.map_eq_nil_iff.mp h)

theorem min_height_mono (rs rs' : List Rectangle) (c : Container)
    (hw : ∀ i, (getRect rs i).width = (getRect rs' i).width)
    (hh : ∀ i, (getRect rs i).height ≤ (getRect rs' i).height) :
    c.get_minimum_height rs ≤ c.get_minimum_height rs' := by
  by_cases hs : c.bottom_rectangles = [] ∨ c.top_rectangles = []
  · rw [get_minimum_height_of_single rs c hs, get_minimum_height_of_single rs' c hs]
    exact add_le_add (get_bottom_height_le rs rs' c hh) (get_top_height_le rs rs' c hh)
  · push_neg at hs
    obtain ⟨hbne, htne⟩ := hs
    rw [get_minimum_height_of_both rs c hbne htne,
      get_minimum_height_of_both rs' c hbne htne]
    have hSS := scan_mono rs rs' c.bottom_rectangles c.top_rectangles hw hh
    have hS0 := scan_nonneg rs c.bottom_rectangles c.top_rectangles
    have hT : maxOfList ((c.bottom_rectangles ++ c.top_rectangles).map
        (fun p => (getRect rs p.1).height)) ≤
        maxOfList ((c.bottom_rectangles ++ c.top_rectangles).map
          (fun p => (getRect rs' p.1).height)) :=
      maxOfList_map_le_map _ _ _ (fun p _ => hh p.1)
    by_cases hz' : min_height_overlap_scan rs' c.bottom_rectangles c.top_rectangles = 0
    · have hz : min_height_overlap_scan rs c.bottom_rectangles c.top_rectangles = 0 :=
        le_antisymm (hz' ▸ hSS) hS0
      rw [if_pos hz, if_pos hz']
      exact max_le_max
        (max_le_max (get_bottom_height_le rs rs' c hh) (get_top_height_le rs rs' c hh))
        hT
    · rw [if_neg hz']
      by_cases hz : min_height_overlap_scan rs c.bottom_rectangles c.top_rectangles = 0
      · rw [if_pos hz]
        have hTmax : maxOfList ((c.bottom_rectangles ++ c.top_rectangles).map
            (fun p => (getRect rs p.1).height)) =
            max (c.get_bottom_height rs) (c.get_top_height rs) :=
          tallest_eq_edges rs c hbne htne
        have hcollapse : max (max (c.get_bottom_height rs) (c.get_top_height rs))
            (maxOfList ((c.bottom_rectangles ++ c.top_rectangles).map
              (fun p => (getRect rs p.1).height))) =
            maxOfList ((c.bottom_rectangles ++ c.top_rectangles).map
              (fun p => (getRect rs p.1).height)) := by
          rw [hTmax, max_self]
        rw [hcollapse]
        exact le_trans hT (le_max_right _ _)
      · rw [if_neg hz]
        exact max_le_max hSS hT

theorem no_clash_of_pairs_bounded (rs : List Rectangle) (c : Container)
    (h : ∀ b ∈ c.bottom_rectangles, ∀ t ∈ c.top_rectangles,
      rects_x_overlap rs b t = true →
      (getRect rs b.1).height + (getRect rs t.1).height ≤ c.height) :
    has_rectangle_clashes rs c = false := by
  unfold has_rectangle_clashes
  by_cases hs : c.bottom_rectangles = [] ∨ c.top_rectangles = []
  · rw [if_pos hs]
  · rw [if_neg hs]
    simp only [List.any_eq_false]
    intro b hb hinner
    rw [List.any_eq_true] at hinner
    obtain ⟨t, ht, hpair⟩ := hinner
    rw [Bool.and_eq_true] at hpair
    obtain ⟨hov, hyov⟩ := hpair
    have hle := h b hb t ht hov
    have hd : (getRect rs b.1).height ≤ c.height - (getRect rs t.1).height := by
      linarith
    rw [decide_eq_true hd] at hyov
    simp at hyov

theorem optimize_height_eq (rs : List Rectangle) (u : Nat → ℚ)
    (cs : List Container) :
    ∀ c' ∈ optimizeContainerHeights rs u cs,
      (c'.bottom_rectangles ≠ [] ∨ c'.top_rectangles ≠ []) →
      c'.height = c'.get_minimum_height rs + u c'.id * c'.get_minimum_height rs := by
  intro c' hc' hocc
  unfold optimizeContainerHeights at hc'
  obtain ⟨c, hc, heq⟩ := List.mem_map.mp hc'
  by_cases h : c.bottom_rectangles ≠ [] ∨ c.top_rectangles ≠ []
  · rw [if_pos h] at heq
    subst heq
    rfl
  · rw [if_neg h] at heq
    subst heq
    exact absurd hocc h

theorem clash_penalty_foldl_id (rs : List Rectangle) :
    ∀ (cs : List Container), (∀ c ∈ cs, has_rectangle_clashes rs c = false) →
      ∀ a : ℚ, cs.foldl
        (fun acc c => if has_rectangle_clashes rs c then acc + 10000 else acc) a = a
  | [], _, _ => rfl
  | c :: t, h, a => by
    rw [List.foldl_cons, if_neg (by simp [h c (List.mem_cons_self c t)])]
    exact clash_penalty_foldl_id rs t
      (fun c' hc' => h c' (List.mem_cons_of_mem c hc')) a

theorem clash_penalty_of_zero (rs : List Rectangle) (cs : List Container)
    (h : ∀ c ∈ cs, has_rectangle_clashes rs c = false) :
    clash_penalty_of rs cs = 0 :=
  clash_penalty_foldl_id rs cs h 0

/-- C2: every container coming out of `pack_rectangles` is clash-free (its
height is the minimum safe height plus a non-negative jitter, which excludes
simultaneous X- and Y-overlap for every bottom/top pair), so the
`clash_penalty` accumulated in `evaluate_fitness` is always `0`. -/
theorem C2_no_clashes_after_pack (opt : StackedContainerOptimizer)
    (ind : Individual) (u : Nat → ℚ)
    (hu : ∀ i, 0 ≤ u i) (hh : ∀ i, 0 ≤ (getRect opt.rectangles i).height) :
    (∀ c ∈ (pack_rectangles opt u ind).1,
      has_rectangle_clashes opt.rectangles c = false) ∧
    clash_penalty_of opt.rectangles (pack_rectangles opt u ind).1 = 0 := by
  have hmain : ∀ c ∈ (pack_rectangles opt u ind).1,
      has_rectangle_clashes opt.rectangles c = false := by
    intro c hc
    have hc2 : c ∈ optimizeContainerHeights opt.rectangles u
        (packLoop opt.rectangles ind.rectangle_order (mkContainers opt ind) 0
          (List.replicate opt.rectangles.length (-1))).1 := hc
    by_cases hocc : c.bottom_rectangles ≠ [] ∨ c.top_rectangles ≠ []
    · have hht := optimize_height_eq opt.rectangles u _ c hc2 hocc
      have hm0 : 0 ≤ c.get_minimum_height opt.rectangles :=
        min_height_nonneg opt.rectangles c hh hocc
      apply no_clash_of_pairs_bounded
      intro b hb t ht hov
      have hpair := pair_le_min_height opt.rectangles c hh hb ht hov
      have hj : 0 ≤ u c.id * c.get_minimum_height opt.rectangles :=
        mul_nonneg (hu c.id) hm0
      rw [hht]
      linarith
    · push_neg at hocc
      unfold has_rectangle_clashes
      rw [if_pos (Or.inl hocc.1)]
  exact ⟨hmain, clash_penalty_of_zero _ _ hmain⟩

/-- C2 witness: the two-rectangle instance packed with zero jitter. -/
theorem C2_no_clashes_after_pack_witness :
    clash_penalty_of
      ([⟨5,3,0⟩, ⟨5,3,1⟩] : List Rectangle)
      (pack_rectangles ⟨[⟨5,3,0⟩, ⟨5,3,1⟩], 5, 10, 1, 100, 500, 1/5, 4/5, 10⟩
        (fun _ => 0) ⟨1, [0,1], [10], 0, [], 0, 0, []⟩).1 = 0 :=
  (C2_no_clashes_after_pack
    ⟨[⟨5,3,0⟩, ⟨5,3,1⟩], 5, 10, 1, 100, 500, 1/5, 4/5, 10⟩
    ⟨1, [0,1], [10], 0, [], 0, 0, []⟩ (fun _ => 0)
    (fun _ => le_refl 0)
    (by
      intro i
      match i with
      | 0 => norm_num [getRect]
      | 1 => norm_num [getRect]
      | (n+2) => norm_num [getRect, List.getD])).2

/-- C6: after `pack_rectangles`, every container holding at least one item
has height exactly `min_height + u * min_height` with the jitter draw
`u ∈ [0, 0.02]`, hence a height between `min_height` and `1.02 * min_height`;
in particular it is never below the safe minimum. -/
theorem C6_heights_minimum_plus_jitter (opt : StackedContainerOptimizer)
    (ind : Individual) (u : Nat → ℚ)
    (hu : ∀ i, 0 ≤ u i ∧ u i ≤ 1/50)
    (hh : ∀ i, 0 ≤ (getRect opt.rectangles i).height) :
    ∀ c ∈ (pack_rectangles opt u ind).1,
      (c.bottom_rectangles ≠ [] ∨ c.top_rectangles ≠ []) →
      c.height = c.get_minimum_height opt.rectangles +
        u c.id * c.get_minimum_height opt.rectangles ∧
      c.get_minimum_height opt.rectangles ≤ c.height ∧
      c.height ≤ (51/50) * c.get_minimum_height opt.rectangles := by
  intro c hc hocc
  have hc2 : c ∈ optimizeContainerHeights opt.rectangles u
      (packLoop opt.rectangles ind.rectangle_order (mkContainers opt ind) 0
        (List.replicate opt.rectangles.length (-1))).1 := hc
  have hht := optimize_height_eq opt.rectangles u _ c hc2 hocc
  have hm0 : 0 ≤ c.get_minimum_height opt.rectangles :=
    min_height_nonneg opt.rectangles c hh hocc
  refine ⟨hht, ?_, ?_⟩
  · have hj : 0 ≤ u c.id * c.get_minimum_height opt.rectangles :=
      mul_nonneg (hu c.id).1 hm0
    rw [hht]; linarith
  · have hj : u c.id * c.get_minimum_height opt.rectangles ≤
        (1/50) * c.get_minimum_height opt.rectangles :=
      mul_le_mul_of_nonneg_right (hu c.id).2 hm0
    rw [hht]; linarith

/-- Concrete evaluation of `pack_rectangles` on the two-rectangle demo
instance (rectangles `(5,3)` and `(5,3)`, container width 5, one container of
height budget 10), for an arbitrary jitter draw `u`: one rectangle lands on
the bottom edge at `x = 0`, the other on the top edge at `x = 0`, and the
container height becomes `6 + u 0 * 6`. -/
theorem pack_demo_eval (u : Nat → ℚ) :
    pack_rectangles ⟨[⟨5,3,0⟩, ⟨5,3,1⟩], 5, 10, 1, 100, 500, 1/5, 4/5, 10⟩ u
      ⟨1, [0,1], [10], 0, [], 0, 0, []⟩ =
    ([⟨5, 6 + u 0 * 6, 0, [(0,0)], [(1,0)]⟩], 2, [0, 0]) := by
  norm_num [pack_rectangles, packLoop, placeRectFrom, mkContainers, getRect,
    can_place_at_bottom, can_place_at_top, find_bottom_position, find_top_position,
    align_scan, overlaps_with_items, firstFitFrom, sortRanges, insertRange,
    optimizeContainerHeights, Container.get_minimum_height, Container.get_bottom_height,
    Container.get_top_height, min_height_overlap_scan, rects_x_overlap, maxOfList,
    max_def, List.set]

/-- C6 witness: with jitter `1/100`, the packed container's height `6.06`
sits between the minimum `6` and `1.02 * 6`. -/
theorem C6_heights_minimum_plus_jitter_witness :
    ((pack_rectangles ⟨[⟨5,3,0⟩, ⟨5,3,1⟩], 5, 10, 1, 100, 500, 1/5, 4/5, 10⟩
        (fun _ => 1/100) ⟨1, [0,1], [10], 0, [], 0, 0, []⟩).1.getD 0
          ⟨0,0,0,[],[]⟩).get_minimum_height [⟨5,3,0⟩, ⟨5,3,1⟩] ≤
      ((pack_rectangles ⟨[⟨5,3,0⟩, ⟨5,3,1⟩], 5, 10, 1, 100, 500, 1/5, 4/5, 10⟩
        (fun _ => 1/100) ⟨1, [0,1], [10], 0, [], 0, 0, []⟩).1.getD 0
          ⟨0,0,0,[],[]⟩).height := by
  have h := C6_heights_minimum_plus_jitter
    ⟨[⟨5,3,0⟩, ⟨5,3,1⟩], 5, 10, 1, 100, 500, 1/5, 4/5, 10⟩
    ⟨1, [0,1], [10], 0, [], 0, 0, []⟩ (fun _ => 1/100)
    (fun _ => by norm_num)
    (by
      intro i
      match i with
      | 0 => norm_num [getRect]
      | 1 => norm_num [getRect]
      | (n+2) => norm_num [getRect, List.getD])
  have hev := pack_demo_eval (fun _ => 1/100)
  refine (h _ ?_ ?_).2.1
  · rw [hev]
    simp
  · rw [hev]
    simp

/-- C7: `get_minimum_height` is monotonically non-decreasing in the occupant
rectangle heights (widths and placements fixed) and is bounded below by the
height of every single occupant. -/
theorem C7_min_height_monotone_and_floor (rs rs' : List Rectangle)
    (c : Container)
    (hw : ∀ i, (getRect rs i).width = (getRect rs' i).width)
    (hh : ∀ i, (getRect rs i).height ≤ (getRect rs' i).height) :
    c.get_minimum_height rs ≤ c.get_minimum_height rs' ∧
    ∀ p ∈ c.bottom_rectangles ++ c.top_rectangles,
      (getRect rs p.1).height ≤ c.get_minimum_height rs :=
  ⟨min_height_mono rs rs' c hw hh, fun _ hp => min_height_ge_occupant rs c hp⟩

/-- C7 witness: raising one occupant's height from 3 to 4 does not decrease
the minimum height of a container holding rectangles 0 (bottom) and 1 (top). -/
theorem C7_min_height_monotone_and_floor_witness :
    (⟨5, 10, 0, [(0,0)], [(1,0)]⟩ : Container).get_minimum_height
        [⟨2,3,0⟩, ⟨2,1,1⟩] ≤
      (⟨5, 10, 0, [(0,0)], [(1,0)]⟩ : Container).get_minimum_height
        [⟨2,4,0⟩, ⟨2,1,1⟩] :=
  (C7_min_height_monotone_and_floor [⟨2,3,0⟩, ⟨2,1,1⟩] [⟨2,4,0⟩, ⟨2,1,1⟩]
    ⟨5, 10, 0, [(0,0)], [(1,0)]⟩
    (by
      intro i
      match i with
      | 0 => rfl
      | 1 => rfl
      | (n+2) => rfl)
    (by
      intro i
      match i with
      | 0 => norm_num [getRect]
      | 1 => norm_num [getRect]
      | (n+2) => norm_num [getRect, List.getD])).1

/-- C1 (code bug): `Individual.copy` does not copy `container_heights`.  An
individual over `max_total_height = 10`, `max_containers = 1` whose height
list was mutated to `[3]` is copied (the inner `__init__` draw is forced to
`r = 1`) into an individual whose height list is the fresh equal split
`[10]`, not `[3]`. -/
theorem C1_copy_reinitializes_heights :
    ((⟨1, [0], [3], 0, [], 0, 0, []⟩ : Individual).copy
        ⟨[⟨4,3,0⟩], 5, 10, 1, 100, 500, 1/5, 4/5, 10⟩ 1).container_heights = [10] ∧
    ((⟨1, [0], [3], 0, [], 0, 0, []⟩ : Individual).container_heights = [3]) := by
  constructor
  · show List.replicate 1 ((10:ℚ) / ((1:Nat) : ℚ)) = [10]
    norm_num
  · rfl

/-- C3 (code bug): the constructor accepts an empty rectangle list,
`container_width = 0` and `max_containers = 0` without any validation and
returns a fully populated optimizer. -/
theorem C3_constructor_accepts_invalid :
    (StackedContainerOptimizer.mkOptimizer [] 0 10 0 100 500 (1/5) (4/5)
      (1/10)).rectangles = [] ∧
    (StackedContainerOptimizer.mkOptimizer [] 0 10 0 100 500 (1/5) (4/5)
      (1/10)).max_containers = 0 ∧
    (StackedContainerOptimizer.mkOptimizer [] 0 10 0 100 500 (1/5) (4/5)
      (1/10)).container_width = 0 :=
  ⟨rfl, rfl, rfl⟩

/-- C8: on the instance with rectangles `(5,3)` and `(5,3)`, container width
5, one container of height budget 10, `pack_rectangles` places one rectangle
on the bottom edge and one on the top edge (`placed_count = 2`), the
resulting container has `get_minimum_height = 6`, and no clash. -/
theorem C8_scenario_same_width_rectangles (u : Nat → ℚ) (hu : 0 ≤ u 0) :
    (pack_rectangles ⟨[⟨5,3,0⟩, ⟨5,3,1⟩], 5, 10, 1, 100, 500, 1/5, 4/5, 10⟩ u
      ⟨1, [0,1], [10], 0, [], 0, 0, []⟩).2.1 = 2 ∧
    (pack_rectangles ⟨[⟨5,3,0⟩, ⟨5,3,1⟩], 5, 10, 1, 100, 500, 1/5, 4/5, 10⟩ u
      ⟨1, [0,1], [10], 0, [], 0, 0, []⟩).1.map
        (fun c => (c.bottom_rectangles, c.top_rectangles)) = [([(0,0)], [(1,0)])] ∧
    ∀ c ∈ (pack_rectangles ⟨[⟨5,3,0⟩, ⟨5,3,1⟩], 5, 10, 1, 100, 500, 1/5, 4/5, 10⟩ u
      ⟨1, [0,1], [10], 0, [], 0, 0, []⟩).1,
      c.get_minimum_height [⟨5,3,0⟩, ⟨5,3,1⟩] = 6 ∧
      has_rectangle_clashes [⟨5,3,0⟩, ⟨5,3,1⟩] c = false := by
  have hev := pack_demo_eval u
  refine ⟨by rw [hev], by rw [hev]; rfl, ?_⟩
  intro c hc
  rw [hev] at hc
  simp only [List.mem_singleton] at hc
  subst hc
  constructor
  · norm_num [Container.get_minimum_height, Container.get_bottom_height,
      Container.get_top_height, min_height_overlap_scan, rects_x_overlap,
      getRect, maxOfList, max_def]
  · have h6 : (3:ℚ) ≤ (6 + u 0 * 6) - 3 := by nlinarith
    have h0 : ¬ ((0:ℚ) ≥ 6 + u 0 * 6) := by nlinarith
    norm_num [has_rectangle_clashes, rects_x_overlap, getRect, h6, h0]

/-- C8 witness: the scenario with jitter `0`. -/
theorem C8_scenario_same_width_rectangles_witness :
    (pack_rectangles ⟨[⟨5,3,0⟩, ⟨5,3,1⟩], 5, 10, 1, 100, 500, 1/5, 4/5, 10⟩
      (fun _ => 0) ⟨1, [0,1], [10], 0, [], 0, 0, []⟩).2.1 = 2 :=
  (C8_scenario_same_width_rectangles (fun _ => 0) (le_refl 0)).1

/-- C9: `evaluate_fitness` short-circuits to the `-1000` sentinel exactly
when `pack_rectangles` placed zero rectangles; the individual still receives
the packed containers and its encoding fields are untouched.  When at least
one rectangle is placed, the fitness is the full combined formula instead. -/
theorem C9_zero_placed_sentinel (opt : StackedContainerOptimizer) (u : Nat → ℚ)
    (ind : Individual) :
    ((pack_rectangles opt u ind).2.1 = 0 →
      (evaluate_fitness opt u ind).fitness = -1000 ∧
      (evaluate_fitness opt u ind).containers = (pack_rectangles opt u ind).1 ∧
      (evaluate_fitness opt u ind).rectangles_placed = 0 ∧
      (evaluate_fitness opt u ind).container_heights = ind.container_heights ∧
      (evaluate_fitness opt u ind).num_containers = ind.num_containers) ∧
    ((pack_rectangles opt u ind).2.1 ≠ 0 →
      (evaluate_fitness opt u ind).fitness =
        fitness_value opt (pack_rectangles opt u ind).1
          (pack_rectangles opt u ind).2.1 ind.num_containers
          (((pack_rectangles opt u ind).1.take ind.num_containers).map
            Container.height).sum ∧
      (evaluate_fitness opt u ind).containers = (pack_rectangles opt u ind).1) := by
  constructor
  · intro h0
    simp only [evaluate_fitness]
    rw [if_pos h0]
    exact ⟨rfl, rfl, h0, rfl, rfl⟩
  · intro h0
    simp only [evaluate_fitness]
    rw [if_neg h0]
    exact ⟨rfl, rfl⟩

/-- C9 witness: a single rectangle `(8,2)` wider than every container is
never placed, and the evaluated individual's fitness is the sentinel. -/
theorem C9_zero_placed_sentinel_witness :
    (evaluate_fitness ⟨[⟨8,2,0⟩], 7, 10, 2, 100, 500, 1/5, 4/5, 10⟩ (fun _ => 0)
      ⟨1, [0], [10], 0, [], 0, 0, []⟩).fitness = -1000 := by
  have hp : (pack_rectangles ⟨[⟨8,2,0⟩], 7, 10, 2, 100, 500, 1/5, 4/5, 10⟩
      (fun _ => 0) ⟨1, [0], [10], 0, [], 0, 0, []⟩).2.1 = 0 := by
    norm_num [pack_rectangles, packLoop, placeRectFrom, mkContainers, getRect]
  exact ((C9_zero_placed_sentinel ⟨[⟨8,2,0⟩], 7, 10, 2, 100, 500, 1/5, 4/5, 10⟩
    (fun _ => 0) ⟨1, [0], [10], 0, [], 0, 0, []⟩).1 hp).1

/-- C10: the placement phase of `pack_rectangles` does not depend on the
jitter draw: for any two jitter streams the placed count, the assignments and
every container's id and edge placements coincide, and with the same stream
the outputs are identical. -/
theorem C10_pack_deterministic (opt : StackedContainerOptimizer)
    (ind : Individual) (u u' : Nat → ℚ) :
    (pack_rectangles opt u ind).2.1 = (pack_rectangles opt u' ind).2.1 ∧
    (pack_rectangles opt u ind).2.2 = (pack_rectangles opt u' ind).2.2 ∧
    (pack_rectangles opt u ind).1.map
      (fun c => (c.id, c.bottom_rectangles, c.top_rectangles)) =
      (pack_rectangles opt u' ind).1.map
        (fun c => (c.id, c.bottom_rectangles, c.top_rectangles)) ∧
    (u = u' → pack_rectangles opt u ind = pack_rectangles opt u' ind) := by
  refine ⟨rfl, rfl, ?_, fun h => by rw [h]⟩
  show (optimizeContainerHeights opt.rectangles u
      (packLoop opt.rectangles ind.rectangle_order (mkContainers opt ind) 0
        (List.replicate opt.rectangles.length (-1))).1).map _ =
    (optimizeContainerHeights opt.rectangles u'
      (packLoop opt.rectangles ind.rectangle_order (mkContainers opt ind) 0
        (List.replicate opt.rectangles.length (-1))).1).map _
  unfold optimizeContainerHeights
  rw [List.map_map, List.map_map]
  apply List.map_congr_left
  intro c _
  by_cases h : c.bottom_rectangles ≠ [] ∨ c.top_rectangles ≠ []
  · simp only [Function.comp_apply, if_pos h]
  · simp only [Function.comp_apply, if_neg h]

/-- C10 witness: two different jitter streams give the same placed count on
the demo instance. -/
theorem C10_pack_deterministic_witness :
    (pack_rectangles ⟨[⟨5,3,0⟩, ⟨5,3,1⟩], 5, 10, 1, 100, 500, 1/5, 4/5, 10⟩
      (fun _ => 0) ⟨1, [0,1], [10], 0, [], 0, 0, []⟩).2.1 =
    (pack_rectangles ⟨[⟨5,3,0⟩, ⟨5,3,1⟩], 5, 10, 1, 100, 500, 1/5, 4/5, 10⟩
      (fun _ => 1/100) ⟨1, [0,1], [10], 0, [], 0, 0, []⟩).2.1 :=
  (C10_pack_deterministic ⟨[⟨5,3,0⟩, ⟨5,3,1⟩], 5, 10, 1, 100, 500, 1/5, 4/5, 10⟩
    ⟨1, [0,1], [10], 0, [], 0, 0, []⟩ (fun _ => 0) (fun _ => 1/100)).1

/-! ### Order-crossover fill: the two phases of the wrapping pointer -/

theorem oxFill_phase2 (items : List Int) :
    ∀ (G E : List Int) (a : Nat),
      items.Nodup → (∀ x ∈ items, 0 ≤ x) →
      (items.filter (fun x =>
        decide (x ∉ G ++ (List.replicate a (-1) ++ E)))).length = a →
      oxFill (G ++ (List.replicate a (-1) ++ E)) items
        ((G ++ (List.replicate a (-1) ++ E)).length + G.length)
        = G ++ ((items.filter (fun x =>
            decide (x ∉ G ++ (List.replicate a (-1) ++ E)))) ++ E) := by
  induction items with
  | nil =>
    intro G E a _ _ hcount
    simp only [List.filter_nil, List.length_nil] at hcount
    subst hcount
    simp [oxFill]
  | cons item rest ih =>
    intro G E a hnd hpos hcount
    obtain ⟨hitem, hnd'⟩ := List.nodup_cons.mp hnd
    have hpos' : ∀ x ∈ rest, 0 ≤ x := fun x hx => hpos x (List.mem_cons_of_mem _ hx)
    by_cases hmem : item ∈ G ++ (List.replicate a (-1) ++ E)
    · have hstep : oxFill (G ++ (List.replicate a (-1) ++ E)) (item :: rest)
          ((G ++ (List.replicate a (-1) ++ E)).length + G.length)
          = oxFill (G ++ (List.replicate a (-1) ++ E)) rest
            ((G ++ (List.replicate a (-1) ++ E)).length + G.length) := by
        simp only [oxFill]
        rw [if_pos hmem]
      have hfc : (item :: rest).filter (fun x =>
          decide (x ∉ G ++ (List.replicate a (-1) ++ E)))
          = rest.filter (fun x =>
            decide (x ∉ G ++ (List.replicate a (-1) ++ E))) :=
        List.filter_cons_of_neg (by simp [hmem])
      rw [hstep, hfc]
      rw [hfc] at hcount
      exact ih G E a hnd' hpos' hcount
    · have hfc : (item :: rest).filter (fun x =>
          decide (x ∉ G ++ (List.replicate a (-1) ++ E)))
          = item :: rest.filter (fun x =>
            decide (x ∉ G ++ (List.replicate a (-1) ++ E))) :=
        List.filter_cons_of_pos (by simp [hmem])
      rw [hfc] at hcount
      obtain ⟨a', rfl⟩ : ∃ a', a = a' + 1 := by
        cases a with
        | zero => rw [List.length_cons] at hcount; omega
        | succ n => exact ⟨n, rfl⟩
      have hGlt : G.length < (G ++ (List.replicate (a'+1) (-1) ++ E)).length := by
        simp [List.length_append]
      have hmod : ((G ++ (List.replicate (a'+1) (-1) ++ E)).length + G.length) %
          (G ++ (List.replicate (a'+1) (-1) ++ E)).length = G.length := by
        rw [Nat.add_mod_left]
        exact Nat.mod_eq_of_lt hGlt
      have hset : (G ++ (List.replicate (a'+1) (-1) ++ E)).set G.length item
          = (G ++ [item]) ++ (List.replicate a' (-1) ++ E) := by
        rw [List.set_append]
        rw [if_neg (by omega)]
        rw [Nat.sub_self, List.replicate_succ, List.cons_append,
          List.set_cons_zero]
        rw [List.append_cons G item (List.replicate a' (-1) ++ E)]
      have hstep : oxFill (G ++ (List.replicate (a'+1) (-1) ++ E)) (item :: rest)
          ((G ++ (List.replicate (a'+1) (-1) ++ E)).length + G.length)
          = oxFill ((G ++ [item]) ++ (List.replicate a' (-1) ++ E)) rest
            ((G ++ (List.replicate (a'+1) (-1) ++ E)).length + G.length + 1) := by
        simp only [oxFill]
        rw [if_neg hmem, hmod, hset]
      have hmemiff : ∀ x ∈ rest,
          (x ∈ (G ++ [item]) ++ (List.replicate a' (-1) ++ E)) ↔
          (x ∈ G ++ (List.replicate (a'+1) (-1) ++ E)) := by
        intro x hx
        have hx0 : 0 ≤ x := hpos' x hx
        have hxi : x ≠ item := fun h => hitem (h ▸ hx)
        have hxm : x ≠ -1 := by omega
        simp [List.mem_append, List.mem_replicate, hxi, hxm]
      have hfcongr : rest.filter (fun x =>
          decide (x ∉ (G ++ [item]) ++ (List.replicate a' (-1) ++ E)))
          = rest.filter (fun x =>
            decide (x ∉ G ++ (List.replicate (a'+1) (-1) ++ E))) :=
        List.filter_congr (fun x hx => by
          rw [decide_eq_decide]
          exact not_congr (hmemiff x hx))
      have hcount0 : (rest.filter (fun x =>
          decide (x ∉ G ++ (List.replicate (a'+1) (-1) ++ E)))).length = a' := by
        have h := hcount
        rw [List.length_cons] at h
        omega
      have hcount' : (rest.filter (fun x =>
          decide (x ∉ (G ++ [item]) ++ (List.replicate a' (-1) ++ E)))).length = a' := by
        rw [hfcongr]
        exact hcount0
      have hlen : (G ++ (List.replicate (a'+1) (-1) ++ E)).length + G.length + 1
          = ((G ++ [item]) ++ (List.replicate a' (-1) ++ E)).length +
            (G ++ [item]).length := by
        simp [List.length_append]
        omega
      have hres := ih (G ++ [item]) E a' hnd' hpos' hcount'
      rw [hstep, hlen, hres, hfcongr, hfc]
      simp [List.append_assoc]

theorem oxFill_phase1 (items : List Int) :
    ∀ (S : List Int) (a t : Nat),
      items.Nodup → (∀ x ∈ items, 0 ≤ x) →
      (items.filter (fun x =>
        decide (x ∉ List.replicate a (-1) ++ (S ++ List.replicate t (-1))))).length
        = t + a →
      oxFill (List.replicate a (-1) ++ (S ++ List.replicate t (-1))) items
        (a + S.length)
        = (items.filter (fun x =>
            decide (x ∉ List.replicate a (-1) ++ (S ++ List.replicate t (-1))))).drop t
          ++ (S ++ ((items.filter (fun x =>
            decide (x ∉ List.replicate a (-1) ++ (S ++ List.replicate t (-1))))).take t)) := by
  induction items with
  | nil =>
    intro S a t _ _ hcount
    simp only [List.filter_nil, List.length_nil] at hcount
    obtain ⟨rfl, rfl⟩ : t = 0 ∧ a = 0 := by omega
    simp [oxFill]
  | cons item rest ih =>
    intro S a t hnd hpos hcount
    obtain ⟨hitem, hnd'⟩ := List.nodup_cons.mp hnd
    have hpos' : ∀ x ∈ rest, 0 ≤ x := fun x hx => hpos x (List.mem_cons_of_mem _ hx)
    by_cases hmem : item ∈ List.replicate a (-1) ++ (S ++ List.replicate t (-1))
    · have hstep : oxFill (List.replicate a (-1) ++ (S ++ List.replicate t (-1)))
          (item :: rest) (a + S.length)
          = oxFill (List.replicate a (-1) ++ (S ++ List.replicate t (-1))) rest
            (a + S.length) := by
        simp only [oxFill]
        rw [if_pos hmem]
      have hfc : (item :: rest).filter (fun x =>
          decide (x ∉ List.replicate a (-1) ++ (S ++ List.replicate t (-1))))
          = rest.filter (fun x =>
            decide (x ∉ List.replicate a (-1) ++ (S ++ List.replicate t (-1)))) :=
        List.filter_cons_of_neg (by simp [hmem])
      rw [hstep, hfc]
      rw [hfc] at hcount
      exact ih S a t hnd' hpos' hcount
    · have hfc : (item :: rest).filter (fun x =>
          decide (x ∉ List.replicate a (-1) ++ (S ++ List.replicate t (-1))))
          = item :: rest.filter (fun x =>
            decide (x ∉ List.replicate a (-1) ++ (S ++ List.replicate t (-1)))) :=
        List.filter_cons_of_pos (by simp [hmem])
      rw [hfc] at hcount
      rw [List.length_cons] at hcount
      cases t with
      | succ t' =>
        have hplt : a + S.length <
            (List.replicate a (-1) ++ (S ++ List.replicate (t'+1) (-1))).length := by
          simp [List.length_append]
        have hmod : (a + S.length) %
            (List.replicate a (-1) ++ (S ++ List.replicate (t'+1) (-1))).length
            = a + S.length := Nat.mod_eq_of_lt hplt
        have hset : (List.replicate a (-1) ++
              (S ++ List.replicate (t'+1) (-1))).set (a + S.length) item
            = List.replicate a (-1) ++ ((S ++ [item]) ++ List.replicate t' (-1)) := by
          rw [List.set_append, if_neg (by simp [List.length_replicate])]
          rw [List.length_replicate, Nat.add_sub_cancel_left]
          rw [List.set_append, if_neg (by omega)]
          rw [Nat.sub_self, List.replicate_succ, List.set_cons_zero]
          rw [List.append_cons S item (List.replicate t' (-1))]
        have hstep : oxFill (List.replicate a (-1) ++
              (S ++ List.replicate (t'+1) (-1))) (item :: rest) (a + S.length)
            = oxFill (List.replicate a (-1) ++
                ((S ++ [item]) ++ List.replicate t' (-1))) rest
              (a + S.length + 1) := by
          simp only [oxFill]
          rw [if_neg hmem, hmod, hset]
        have hmemiff : ∀ x ∈ rest,
            (x ∈ List.replicate a (-1) ++ ((S ++ [item]) ++ List.replicate t' (-1))) ↔
            (x ∈ List.replicate a (-1) ++ (S ++ List.replicate (t'+1) (-1))) := by
          intro x hx
          have hx0 : 0 ≤ x := hpos' x hx
          have hxi : x ≠ item := fun h => hitem (h ▸ hx)
          have hxm : x ≠ -1 := by omega
          simp [List.mem_append, List.mem_replicate, hxi, hxm]
        have hfcongr : rest.filter (fun x =>
            decide (x ∉ List.replicate a (-1) ++ ((S ++ [item]) ++ List.replicate t' (-1))))
            = rest.filter (fun x =>
              decide (x ∉ List.replicate a (-1) ++ (S ++ List.replicate (t'+1) (-1)))) :=
          List.filter_congr (fun x hx => by
            rw [decide_eq_decide]
            exact not_congr (hmemiff x hx))
        have hcount' : (rest.filter (fun x =>
            decide (x ∉ List.replicate a (-1) ++
              ((S ++ [item]) ++ List.replicate t' (-1))))).length = t' + a := by
          rw [hfcongr]
          omega
        have hlen : a + S.length + 1 = a + (S ++ [item]).length := by
          simp [List.length_append]
          omega
        have hres := ih (S ++ [item]) a t' hnd' hpos' hcount'
        rw [hstep, hlen, hres, hfcongr, hfc]
        rw [List.drop_succ_cons, List.take_succ_cons]
        simp [List.append_assoc]
      | zero =>
        obtain ⟨a'', rfl⟩ : ∃ a'', a = a'' + 1 := by
          cases a with
          | zero => omega
          | succ n => exact ⟨n, rfl⟩
        have hlen0 : (List.replicate (a''+1) (-1) ++
            (S ++ List.replicate 0 (-1))).length = a'' + 1 + S.length := by
          simp [List.length_append]
        have hmod : (a'' + 1 + S.length) %
            (List.replicate (a''+1) (-1) ++ (S ++ List.replicate 0 (-1))).length
            = 0 := by
          rw [hlen0]
          exact Nat.mod_self _
        have hset : (List.replicate (a''+1) (-1) ++
              (S ++ List.replicate 0 (-1))).set 0 item
            = [item] ++ (List.replicate a'' (-1) ++ (S ++ List.replicate 0 (-1))) := by
          rw [List.set_append, if_pos (by simp)]
          rw [List.replicate_succ, List.set_cons_zero]
          rfl
        have hstep : oxFill (List.replicate (a''+1) (-1) ++
              (S ++ List.replicate 0 (-1))) (item :: rest) (a'' + 1 + S.length)
            = oxFill ([item] ++ (List.replicate a'' (-1) ++
                (S ++ List.replicate 0 (-1)))) rest (a'' + 1 + S.length + 1) := by
          simp only [oxFill]
          rw [if_neg hmem, hmod, hset]
        have hmemiff : ∀ x ∈ rest,
            (x ∈ [item] ++ (List.replicate a'' (-1) ++ (S ++ List.replicate 0 (-1)))) ↔
            (x ∈ List.replicate (a''+1) (-1) ++ (S ++ List.replicate 0 (-1))) := by
          intro x hx
          have hx0 : 0 ≤ x := hpos' x hx
          have hxi : x ≠ item := fun h => hitem (h ▸ hx)
          have hxm : x ≠ -1 := by omega
          simp [List.mem_append, List.mem_replicate, hxi, hxm]
        have hfcongr : rest.filter (fun x =>
            decide (x ∉ [item] ++ (List.replicate a'' (-1) ++
              (S ++ List.replicate 0 (-1)))))
            = rest.filter (fun x =>
              decide (x ∉ List.replicate (a''+1) (-1) ++
                (S ++ List.replicate 0 (-1)))) :=
          List.filter_congr (fun x hx => by
            rw [decide_eq_decide]
            exact not_congr (hmemiff x hx))
        have hcount' : (rest.filter (fun x =>
            decide (x ∉ [item] ++ (List.replicate a'' (-1) ++
              (S ++ List.replicate 0 (-1)))))).length = a'' := by
          rw [hfcongr]
          omega
        have hlen1 : a'' + 1 + S.length + 1
            = ([item] ++ (List.replicate a'' (-1) ++
                (S ++ List.replicate 0 (-1)))).length + ([item] : List Int).length := by
          simp [List.length_append]
          omega
        have hres := oxFill_phase2 rest [item] (S ++ List.replicate 0 (-1)) a''
          hnd' hpos' hcount'
        rw [hstep, hlen1, hres, hfcongr, hfc]
        simp [List.append_assoc]

/-! ### Permutation facts for the order mutations -/

theorem cons_set_perm : ∀ (t : List Nat) (m : Nat) (a : Nat), m < t.length →
    ((t.getD m 0) :: t.set m a).Perm (a :: t)
  | b :: t', 0, a, _ => by
    simp only [List.getD_cons_zero, List.set_cons_zero]
    exact List.Perm.swap a b t'
  | b :: t', m+1, a, hm => by
    simp only [List.getD_cons_succ, List.set_cons_succ]
    have ih := cons_set_perm t' m a (by simpa using hm)
    exact ((List.Perm.swap b (t'.getD m 0) _).trans (ih.cons b)).trans
      (List.Perm.swap a b t')

theorem swap_set_perm : ∀ (l : List Nat) (i j : Nat), i < l.length → j < l.length →
    ((l.set i (l.getD j 0)).set j (l.getD i 0)).Perm l
  | [], _, _, hi, _ => absurd hi (by simp)
  | x :: t, 0, 0, _, _ => by simp
  | x :: t, 0, j+1, _, hj => by
    simp only [List.getD_cons_zero, List.getD_cons_succ, List.set_cons_zero,
      List.set_cons_succ]
    exact cons_set_perm t j x (by simpa using hj)
  | x :: t, i+1, 0, hi, _ => by
    simp only [List.getD_cons_zero, List.getD_cons_succ, List.set_cons_zero,
      List.set_cons_succ]
    exact cons_set_perm t i x (by simpa using hi)
  | x :: t, i+1, j+1, hi, hj => by
    simp only [List.getD_cons_succ, List.set_cons_succ]
    exact (swap_set_perm t i j (by simpa using hi) (by simpa using hj)).cons x

theorem take_sub_drop_eq (l : List Nat) (start size : Nat) :
    l.take start ++ (((l.drop start).take size) ++ l.drop (start + size)) = l := by
  have h1 : l.drop (start + size) = (l.drop start).drop size := by
    rw [List.drop_drop]
  rw [h1, List.take_append_drop, List.take_append_drop]

theorem ox_child_perm (p1 p2 : List Nat) (s e n : Nat)
    (h1 : p1.Perm (List.range n)) (h2 : p2.Perm (List.range n))
    (hse : s ≤ e) (hen : e ≤ n) :
    (orderCrossoverChild p1 p2 s e).Perm ((List.range n).map Int.ofNat) := by
  have hlen1 : p1.length = n := by rw [h1.length_eq, List.length_range]
  set q1 := p1.map Int.ofNat with hq1d
  set q2 := p2.map Int.ofNat with hq2d
  have hq1 : q1.Perm ((List.range n).map Int.ofNat) := h1.map _
  have hq2 : q2.Perm ((List.range n).map Int.ofNat) := h2.map _
  have hrnodup : ((List.range n).map Int.ofNat).Nodup :=
    (List.nodup_range n).map (fun _ _ h => Int.ofNat.inj h)
  set seg := (q1.drop s).take (e - s) with hsegd
  set items := q2.drop e ++ q2.take e with hitemsd
  have hlenq1 : q1.length = n := by rw [hq1d, List.length_map, hlen1]
  have hseglen : seg.length = e - s := by
    rw [hsegd, List.length_take, List.length_drop, hlenq1]
    omega
  have hsegsub : seg.Sublist q1 := (List.take_sublist _ _).trans (List.drop_sublist _ _)
  have hq1nodup : q1.Nodup := hq1.nodup_iff.mpr hrnodup
  have hsegnodup : seg.Nodup := hq1nodup.sublist hsegsub
  have hitems : items.Perm q2 := by
    have h := @List.perm_append_comm Int (q2.drop e) (q2.take e)
    rwa [List.take_append_drop] at h
  have hitemsr : items.Perm ((List.range n).map Int.ofNat) := hitems.trans hq2
  have hnodup : items.Nodup := hitemsr.nodup_iff.mpr hrnodup
  have hpos : ∀ x ∈ items, 0 ≤ x := by
    intro x hx
    have hx2 : x ∈ (List.range n).map Int.ofNat := hitemsr.mem_iff.mp hx
    obtain ⟨k, _, rfl⟩ := List.mem_map.mp hx2
    exact Int.ofNat_nonneg k
  have hchildmem : ∀ x : Int, 0 ≤ x →
      ((x ∈ List.replicate s (-1) ++
        (seg ++ List.replicate (p1.length - e) (-1))) ↔ x ∈ seg) := by
    intro x hx0
    have hxm : x ≠ -1 := by omega
    simp [List.mem_append, List.mem_replicate, hxm]
  have hfin : (items.filter (fun x => decide (x ∈ List.replicate s (-1) ++
      (seg ++ List.replicate (p1.length - e) (-1))))).Perm seg := by
    apply List.perm_of_nodup_nodup_toFinset_eq (hnodup.filter _) hsegnodup
    ext x
    simp only [List.mem_toFinset, List.mem_filter, decide_eq_true_eq]
    constructor
    · rintro ⟨hxi, hxc⟩
      exact (hchildmem x (hpos x hxi)).mp hxc
    · intro hxs
      have hxq1 : x ∈ q1 := hsegsub.subset hxs
      have hxr : x ∈ (List.range n).map Int.ofNat := hq1.mem_iff.mp hxq1
      have hxi : x ∈ items := hitemsr.mem_iff.mpr hxr
      exact ⟨hxi, (hchildmem x (hpos x hxi)).mpr hxs⟩
  have hlenitems : items.length = n := by
    rw [hitemsr.length_eq, List.length_map, List.length_range]
  have hsplit := List.filter_append_perm (fun x => decide (x ∈ List.replicate s (-1) ++
    (seg ++ List.replicate (p1.length - e) (-1)))) items
  have hlensum : (items.filter (fun x => decide (x ∈ List.replicate s (-1) ++
      (seg ++ List.replicate (p1.length - e) (-1))))).length +
      (items.filter (fun x => !decide (x ∈ List.replicate s (-1) ++
        (seg ++ List.replicate (p1.length - e) (-1))))).length = n := by
    have h := hsplit.length_eq
    rw [List.length_append] at h
    rw [h, hlenitems]
  have hfinlen : (items.filter (fun x => decide (x ∈ List.replicate s (-1) ++
      (seg ++ List.replicate (p1.length - e) (-1))))).length = e - s := by
    rw [hfin.length_eq, hseglen]
  have hnotdef : (fun x : Int => decide (x ∉ List.replicate s (-1) ++
      (seg ++ List.replicate (p1.length - e) (-1))))
      = (fun x : Int => !decide (x ∈ List.replicate s (-1) ++
        (seg ++ List.replicate (p1.length - e) (-1)))) := by
    funext x
    exact decide_not
  have hcount : (items.filter (fun x => decide (x ∉ List.replicate s (-1) ++
      (seg ++ List.replicate (p1.length - e) (-1))))).length
      = (p1.length - e) + s := by
    rw [hnotdef]
    omega
  have hmain := oxFill_phase1 items seg s (p1.length - e) hnodup hpos hcount
  show (oxFill (List.replicate s (-1) ++
    (seg ++ List.replicate (p1.length - e) (-1))) items e).Perm
    ((List.range n).map Int.ofNat)
  nth_rewrite 2 [(by rw [hseglen]; omega : e = s + seg.length)]
  rw [hmain]
  have hstep1 : ((items.filter (fun x => decide (x ∉ List.replicate s (-1) ++
      (seg ++ List.replicate (p1.length - e) (-1))))).drop (p1.length - e) ++
      (seg ++ (items.filter (fun x => decide (x ∉ List.replicate s (-1) ++
        (seg ++ List.replicate (p1.length - e) (-1))))).take (p1.length - e))).Perm
      (seg ++ ((items.filter (fun x => decide (x ∉ List.replicate s (-1) ++
        (seg ++ List.replicate (p1.length - e) (-1))))).take (p1.length - e) ++
        (items.filter (fun x => decide (x ∉ List.replicate s (-1) ++
          (seg ++ List.replicate (p1.length - e) (-1))))).drop (p1.length - e))) := by
    have h := @List.perm_append_comm Int
      ((items.filter (fun x => decide (x ∉ List.replicate s (-1) ++
        (seg ++ List.replicate (p1.length - e) (-1))))).drop (p1.length - e))
      (seg ++ (items.filter (fun x => decide (x ∉ List.replicate s (-1) ++
        (seg ++ List.replicate (p1.length - e) (-1))))).take (p1.length - e))
    rwa [List.append_assoc] at h
  refine hstep1.trans ?_
  rw [List.take_append_drop]
  have hstep3 : (seg ++ items.filter (fun x => decide (x ∉ List.replicate s (-1) ++
      (seg ++ List.replicate (p1.length - e) (-1))))).Perm
      (items.filter (fun x => decide (x ∈ List.replicate s (-1) ++
        (seg ++ List.replicate (p1.length - e) (-1)))) ++
        items.filter (fun x => decide (x ∉ List.replicate s (-1) ++
          (seg ++ List.replicate (p1.length - e) (-1))))) :=
    hfin.symm.append (List.Perm.refl _)
  refine hstep3.trans ?_
  rw [hnotdef]
  exact hsplit.trans hitemsr

theorem mutateHeightsOp_order (opt : StackedContainerOptimizer) (ind : Individual)
    (idx : Nat) (delta : ℚ) :
    (mutateHeightsOp opt ind idx delta).rectangle_order = ind.rectangle_order := by
  unfold mutateHeightsOp
  split <;> rfl

theorem mutateAdjustOp_order (opt : StackedContainerOptimizer) (ind : Individual)
    (f : Nat → ℚ) :
    (mutateAdjustOp opt ind f).rectangle_order = ind.rectangle_order := by
  unfold mutateAdjustOp
  split <;> rfl

theorem mutateRandomHeightsOp_order (opt : StackedContainerOptimizer)
    (ind : Individual) (g : Nat → ℚ) :
    (mutateRandomHeightsOp opt ind g).rectangle_order = ind.rectangle_order := by
  unfold mutateRandomHeightsOp
  split <;> rfl

theorem mutateOrderOp_order (ind : Individual) (i j : Nat) :
    (mutateOrderOp ind i j).rectangle_order =
      if 1 < ind.rectangle_order.length
      then (ind.rectangle_order.set i (ind.rectangle_order.getD j 0)).set j
        (ind.rectangle_order.getD i 0)
      else ind.rectangle_order := by
  unfold mutateOrderOp
  split <;> rfl

theorem mutateShuffleOp_order (ind : Individual) (start size : Nat)
    (newSub : List Nat) :
    (mutateShuffleOp ind start size newSub).rectangle_order =
      if 2 < ind.rectangle_order.length
      then ind.rectangle_order.take start ++ newSub ++
        ind.rectangle_order.drop (start + size)
      else ind.rectangle_order := by
  unfold mutateShuffleOp
  split <;> rfl

/-- C4: `rectangle_order` stays a permutation of `0..N-1` across
`initialize_random` (any shuffle outcome), both order-crossover children
(any cut points `s ≤ e ≤ N` and any coin draws), and every mutation operator
(any draw values, with the swap indices in range and the shuffled
subsequence a permutation of the replaced slice). -/
theorem C4_order_permutation_invariant (opt : StackedContainerOptimizer)
    (ind pA pB : Individual) (mt : MutationType) (d : MutationDraws)
    (shuffled : List Nat) (numCoin : Bool) (coins : Nat → Bool) (s e : Nat)
    (hind : ind.rectangle_order.Perm (List.range opt.rectangles.length))
    (hA : pA.rectangle_order.Perm (List.range opt.rectangles.length))
    (hB : pB.rectangle_order.Perm (List.range opt.rectangles.length))
    (hsh : shuffled.Perm ind.rectangle_order)
    (hse : s ≤ e) (hen : e ≤ opt.rectangles.length)
    (hi : d.i < ind.rectangle_order.length) (hj : d.j < ind.rectangle_order.length)
    (hsub : d.newSub.Perm ((ind.rectangle_order.drop d.start).take d.size)) :
    (ind.init_random shuffled).rectangle_order.Perm
      (List.range opt.rectangles.length) ∧
    (crossover opt pA pB numCoin coins s e).1.rectangle_order.Perm
      (List.range opt.rectangles.length) ∧
    (crossover opt pA pB numCoin coins s e).2.rectangle_order.Perm
      (List.range opt.rectangles.length) ∧
    (mutate opt ind mt d).rectangle_order.Perm
      (List.range opt.rectangles.length) := by
  have hmapid : ∀ (l : List Int),
      l.Perm ((List.range opt.rectangles.length).map Int.ofNat) →
      (l.map Int.toNat).Perm (List.range opt.rectangles.length) := by
    intro l hl
    have h := hl.map Int.toNat
    rw [List.map_map] at h
    have hid : ((List.range opt.rectangles.length).map (Int.toNat ∘ Int.ofNat))
        = List.range opt.rectangles.length := by
      have : (Int.toNat ∘ Int.ofNat) = id := funext (fun k => Int.toNat_ofNat k)
      rw [this, List.map_id]
    rwa [hid] at h
  refine ⟨hsh.trans hind, ?_, ?_, ?_⟩
  · exact hmapid _ (ox_child_perm pA.rectangle_order pB.rectangle_order s e
      opt.rectangles.length hA hB hse hen)
  · exact hmapid _ (ox_child_perm pB.rectangle_order pA.rectangle_order s e
      opt.rectangles.length hB hA hse hen)
  · cases mt with
    | containers => exact hind
    | heights =>
      rw [show (mutate opt ind MutationType.heights d).rectangle_order
        = ind.rectangle_order from mutateHeightsOp_order opt ind d.idx d.delta]
      exact hind
    | order =>
      rw [show (mutate opt ind MutationType.order d).rectangle_order
        = _ from mutateOrderOp_order ind d.i d.j]
      split
      · exact (swap_set_perm ind.rectangle_order d.i d.j hi hj).trans hind
      · exact hind
    | adjust =>
      rw [show (mutate opt ind MutationType.adjust d).rectangle_order
        = ind.rectangle_order from mutateAdjustOp_order opt ind d.adjustF]
      exact hind
    | shuffle =>
      rw [show (mutate opt ind MutationType.shuffle d).rectangle_order
        = _ from mutateShuffleOp_order ind d.start d.size d.newSub]
      split
      · rw [List.append_assoc]
        refine List.Perm.trans ?_ hind
        have h := (List.Perm.refl (ind.rectangle_order.take d.start)).append
          (hsub.append (List.Perm.refl (ind.rectangle_order.drop (d.start + d.size))))
        rwa [take_sub_drop_eq] at h
      · exact hind
    | random_heights =>
      rw [show (mutate opt ind MutationType.random_heights d).rectangle_order
        = ind.rectangle_order from mutateRandomHeightsOp_order opt ind d.randF]
      exact hind

/-- C4 witness: a three-rectangle instance, parents `[0,1,2]` and `[2,1,0]`,
cut points `(1,2)`, and the swap mutation exchanging positions 0 and 1. -/
theorem C4_order_permutation_invariant_witness :
    ((⟨1, [2,0,1], [10], 0, [], 0, 0, []⟩ : Individual).init_random
      [1,0,2]).rectangle_order.Perm (List.range 3) ∧
    (crossover ⟨[⟨1,1,0⟩,⟨1,1,1⟩,⟨1,1,2⟩], 5, 10, 2, 100, 500, 1/5, 4/5, 10⟩
      ⟨1, [0,1,2], [10], 0, [], 0, 0, []⟩ ⟨1, [2,1,0], [10], 0, [], 0, 0, []⟩
      true (fun _ => true) 1 2).1.rectangle_order.Perm (List.range 3) ∧
    (crossover ⟨[⟨1,1,0⟩,⟨1,1,1⟩,⟨1,1,2⟩], 5, 10, 2, 100, 500, 1/5, 4/5, 10⟩
      ⟨1, [0,1,2], [10], 0, [], 0, 0, []⟩ ⟨1, [2,1,0], [10], 0, [], 0, 0, []⟩
      true (fun _ => true) 1 2).2.rectangle_order.Perm (List.range 3) ∧
    (mutate ⟨[⟨1,1,0⟩,⟨1,1,1⟩,⟨1,1,2⟩], 5, 10, 2, 100, 500, 1/5, 4/5, 10⟩
      ⟨1, [2,0,1], [10], 0, [], 0, 0, []⟩ MutationType.order
      ⟨1, 0, 0, 0, 1, fun _ => 1, 0, 0, [], fun _ => 1⟩).rectangle_order.Perm
        (List.range 3) :=
  C4_order_permutation_invariant
    ⟨[⟨1,1,0⟩,⟨1,1,1⟩,⟨1,1,2⟩], 5, 10, 2, 100, 500, 1/5, 4/5, 10⟩
    ⟨1, [2,0,1], [10], 0, [], 0, 0, []⟩
    ⟨1, [0,1,2], [10], 0, [], 0, 0, []⟩
    ⟨1, [2,1,0], [10], 0, [], 0, 0, []⟩
    MutationType.order ⟨1, 0, 0, 0, 1, fun _ => 1, 0, 0, [], fun _ => 1⟩
    [1,0,2] true (fun _ => true) 1 2
    (by decide) (by decide) (by decide) (by decide)
    (by decide) (by decide) (by decide) (by decide) (by decide)
